import Mathlib

/-!
Shallow embedding of the periodic timer of `src/apps/api/src/engine/core/core.py`
(`_async_create_timer` and its inner callbacks `schedule_tick`, `fire_time_event`,
`stop_timer`), together with theorems checking the specification's statements
about it.

Wall-clock instants (`datetime` values) are modelled by their integral second
together with the sub-second microsecond component; monotonic-clock readings and
second-valued durations are modelled as exact rationals.  Firing on the event
bus (`hass.bus.async_fire`) is modelled by appending the constructed event to a
trace, and the event loop's `call_later` by storing the scheduled callback's
delay and `target` argument in an optional handle.
-/

namespace RxHomeCore

/-- Modelled from the spec: the event-type constant `EVENT_TIME_CHANGED`
(imported from `homeassistant.const`, not part of the excerpt); spec §6 names
the event type `time_changed`. -/
def EVENT_TIME_CHANGED : String := "time_changed"

/-- Modelled from the spec: the event-type constant `EVENT_TIMER_OUT_OF_SYNC`;
spec §6 names the event type `timer_out_of_sync`. -/
def EVENT_TIMER_OUT_OF_SYNC : String := "timer_out_of_sync"

/-- Modelled from the spec: the event-type constant `EVENT_HOMEASSISTANT_STOP`;
spec §6 names the event type `homeassistant_stop`. -/
def EVENT_HOMEASSISTANT_STOP : String := "homeassistant_stop"

/-- Modelled from the spec: the data-key constant `ATTR_NOW`; spec §6 says
`time_changed` carries key `now`. -/
def ATTR_NOW : String := "now"

/-- Modelled from the spec: the data-key constant `ATTR_SECONDS`; spec §6 says
`timer_out_of_sync` carries key `seconds`. -/
def ATTR_SECONDS : String := "seconds"

/-- A wall-clock instant (`datetime`): integral seconds since the epoch plus
the sub-second `microsecond` component (`0 ≤ microsecond < 10^6` for every
value produced by `datetime`; the bound is carried as a hypothesis where it
matters). -/
structure Date where
  epochSecond : ℤ
  microsecond : ℕ
deriving DecidableEq, Repr

/-- Modelled from the spec: `Context` (spec §3) is an immutable causal-chain
token with an opaque unique id and an optional parent id; the class itself is
not part of the excerpt. -/
structure Context where
  id : ℕ
  parent_id : Option ℕ
deriving DecidableEq, Repr

/-- A value stored in an event's `data` mapping: the timer stores either a
wall-clock instant (under `now`) or a duration in seconds (under `seconds`). -/
inductive AttrValue where
  | date (d : Date)
  | num (q : ℚ)
deriving DecidableEq, Repr

/-- An event as fired on the bus: type, `data` mapping (association list of
key/value pairs), `time_fired` timestamp and causal `Context`. -/
structure Event where
  event_type : String
  data : List (String × AttrValue)
  time_fired : Date
  context : Context
deriving DecidableEq, Repr

/-- The handle returned by `hass.loop.call_later(slp_seconds, fire_time_event,
target)`: the delay it was scheduled with, the monotonic `target` argument that
will be passed to `fire_time_event`, and whether `cancel()` was called on it. -/
structure TimerHandle where
  delay : ℚ
  target : ℚ
  cancelled : Bool
deriving DecidableEq, Repr

/-- A listener registration on the bus (spec §3): event type plus the one-shot
flag. -/
structure ListenerReg where
  event_type : String
  once : Bool
deriving DecidableEq, Repr

/-- The observable state touched by `_async_create_timer`: the nonlocal
`handle`, the long-lived `timer_context`, the trace of events fired on
`hass.bus`, and the listener registrations made on `hass.bus`. -/
structure TimerState where
  handle : Option TimerHandle
  timer_context : Context
  events : List Event
  listeners : List ListenerReg
deriving DecidableEq, Repr

/-- The clock readings the environment supplies during one `fire_time_event`
invocation: the wall clock read by `dt_util.utcnow()` at the start, the
monotonic reading in `late = monotonic() - target`, and the (later) monotonic
reading inside the nested `schedule_tick` call. -/
structure TickEnv where
  now : Date
  monoAtLate : ℚ
  monoAtSched : ℚ
deriving DecidableEq, Repr

/-- `slp_seconds = 1 - (now.microsecond / 10 ** 6)` (core.py line 97). -/
def slp_seconds (now : Date) : ℚ :=
  1 - (now.microsecond : ℚ) / 10 ^ 6

/-- `hass.bus.async_fire(event_type, data, time_fired, context)`: constructs
the event and appends it to the trace. -/
def async_fire (s : TimerState) (event_type : String)
    (data : List (String × AttrValue)) (time_fired : Date) (context : Context) :
    TimerState :=
  { s with events := s.events ++
      [{ event_type := event_type, data := data, time_fired := time_fired,
         context := context }] }

/-- `hass.bus.async_listen_once(event_type, listener)`: registers a one-shot
listener. -/
def async_listen_once (s : TimerState) (event_type : String) : TimerState :=
  { s with listeners := s.listeners ++ [{ event_type := event_type, once := true }] }

/-- `schedule_tick(now)` (core.py lines 93-99): computes
`slp_seconds = 1 - now.microsecond / 10^6`, reads `monotonic()` (the `mono`
argument), and stores the handle of
`hass.loop.call_later(slp_seconds, fire_time_event, monotonic() + slp_seconds)`
in the nonlocal `handle`. -/
def schedule_tick (s : TimerState) (now : Date) (mono : ℚ) : TimerState :=
  let slp := slp_seconds now
  { s with handle := some { delay := slp, target := mono + slp, cancelled := false } }

/-- `fire_time_event(target)` (core.py lines 101-120): captures
`now = dt_util.utcnow()`, fires `EVENT_TIME_CHANGED` with `{ATTR_NOW: now}`,
`time_fired=now` and the timer context, computes `late = monotonic() - target`,
fires `EVENT_TIMER_OUT_OF_SYNC` with `{ATTR_SECONDS: late}` when `late > 1`,
then calls `schedule_tick(now)`. -/
def fire_time_event (s : TimerState) (target : ℚ) (env : TickEnv) : TimerState :=
  let now := env.now
  let s1 := async_fire s EVENT_TIME_CHANGED [(ATTR_NOW, AttrValue.date now)]
    now s.timer_context
  let late := env.monoAtLate - target
  let s2 := if late > 1 then
      async_fire s1 EVENT_TIMER_OUT_OF_SYNC [(ATTR_SECONDS, AttrValue.num late)]
        now s1.timer_context
    else s1
  schedule_tick s2 now env.monoAtSched

/-- `handle.cancel()` on a `call_later` handle. -/
def cancelHandle (h : TimerHandle) : TimerHandle :=
  { h with cancelled := true }

/-- `stop_timer(_)` (core.py lines 122-126): `if handle is not None:
handle.cancel()`. -/
def stop_timer (s : TimerState) : TimerState :=
  match s.handle with
  | none => s
  | some h => { s with handle := some (cancelHandle h) }

/-- `_async_create_timer(hass)` (core.py lines 88-131): starts with
`handle = None` and a freshly minted `timer_context` (supplied here as the
`ctx` argument), registers `stop_timer` as a one-shot listener for
`EVENT_HOMEASSISTANT_STOP`, then immediately calls
`schedule_tick(dt_util.utcnow())`. -/
def _async_create_timer (ctx : Context) (now0 : Date) (mono0 : ℚ) : TimerState :=
  let s0 : TimerState :=
    { handle := none, timer_context := ctx, events := [], listeners := [] }
  let s1 := async_listen_once s0 EVENT_HOMEASSISTANT_STOP
  schedule_tick s1 now0 mono0

/-- One wake-up of the event loop: the scheduled callback
`fire_time_event(target)` runs with the `target` stored in the pending handle;
a cancelled or absent handle never fires. -/
def tick (s : TimerState) (env : TickEnv) : TimerState :=
  match s.handle with
  | none => s
  | some h => if h.cancelled then s else fire_time_event s h.target env

/-- A run of the timer: the wake-ups happen in sequence, each with its own
clock readings. -/
def runTicks (s : TimerState) (envs : List TickEnv) : TimerState :=
  envs.foldl tick s

/-- The `EVENT_TIME_CHANGED` event fired by one tick that captured `now`. -/
def time_changed_event (ctx : Context) (now : Date) : Event :=
  { event_type := EVENT_TIME_CHANGED, data := [(ATTR_NOW, AttrValue.date now)],
    time_fired := now, context := ctx }

/-- The `EVENT_TIMER_OUT_OF_SYNC` event fired by a tick that captured `now`
and was `late` seconds late. -/
def out_of_sync_event (ctx : Context) (now : Date) (late : ℚ) : Event :=
  { event_type := EVENT_TIMER_OUT_OF_SYNC,
    data := [(ATTR_SECONDS, AttrValue.num late)],
    time_fired := now, context := ctx }

/-- The handle produced by `schedule_tick` from wall clock `now` and monotonic
reading `mono`. -/
def expectedHandle (now : Date) (mono : ℚ) : TimerHandle :=
  { delay := slp_seconds now, target := mono + slp_seconds now, cancelled := false }

lemma fire_time_event_events (s : TimerState) (target : ℚ) (env : TickEnv) :
    (fire_time_event s target env).events =
      s.events ++
        (if env.monoAtLate - target > 1 then
          [time_changed_event s.timer_context env.now,
           out_of_sync_event s.timer_context env.now (env.monoAtLate - target)]
        else [time_changed_event s.timer_context env.now]) := by
  unfold fire_time_event async_fire schedule_tick time_changed_event out_of_sync_event
  dsimp only
  split <;> rename_i h <;> simp [h]

lemma fire_time_event_handle (s : TimerState) (target : ℚ) (env : TickEnv) :
    (fire_time_event s target env).handle =
      some (expectedHandle env.now env.monoAtSched) := rfl

lemma fire_time_event_timer_context (s : TimerState) (target : ℚ) (env : TickEnv) :
    (fire_time_event s target env).timer_context = s.timer_context := by
  unfold fire_time_event async_fire schedule_tick
  dsimp only
  split <;> rfl

lemma tick_timer_context (s : TimerState) (env : TickEnv) :
    (tick s env).timer_context = s.timer_context := by
  unfold tick
  rcases s.handle with _ | h
  · rfl
  · dsimp only
    split
    · rfl
    · exact fire_time_event_timer_context ..

lemma runTicks_timer_context (envs : List TickEnv) (s : TimerState) :
    (runTicks s envs).timer_context = s.timer_context := by
  induction envs generalizing s with
  | nil => rfl
  | cons env rest ih =>
      show (runTicks (tick s env) rest).timer_context = _
      rw [ih, tick_timer_context]

lemma tick_events_all (p : Event → Bool) (s : TimerState) (env : TickEnv)
    (hs : s.events.all p = true)
    (hp : ∀ now late, p (time_changed_event s.timer_context now) = true ∧
      p (out_of_sync_event s.timer_context now late) = true) :
    (tick s env).events.all p = true := by
  unfold tick
  rcases s.handle with _ | h
  · exact hs
  · dsimp only
    split
    · exact hs
    · rw [fire_time_event_events, List.all_append, hs]
      rw [Bool.true_and]
      split
      · simp [(hp env.now (env.monoAtLate - h.target)).1,
          (hp env.now (env.monoAtLate - h.target)).2]
      · simp [(hp env.now 0).1]

lemma runTicks_events_all (p : Event → Bool) (envs : List TickEnv) (s : TimerState)
    (hs : s.events.all p = true)
    (hp : ∀ now late, p (time_changed_event s.timer_context now) = true ∧
      p (out_of_sync_event s.timer_context now late) = true) :
    (runTicks s envs).events.all p = true := by
  induction envs generalizing s with
  | nil => exact hs
  | cons env rest ih =>
      show (runTicks (tick s env) rest).events.all p = true
      refine ih (tick s env) (tick_events_all p s env hs hp) ?_
      rw [tick_timer_context]
      exact hp

/-! Concrete sample values used by witnesses and the counterexample. -/

/-- A sample timer context. -/
def sampleContext : Context := { id := 7, parent_id := none }

/-- A sample creation instant, exactly on a second boundary. -/
def sampleDate : Date := { epochSecond := 1000, microsecond := 0 }

/-- A timer state with no pending handle. -/
def emptyState : TimerState :=
  { handle := none, timer_context := sampleContext, events := [], listeners := [] }

/-- The state right after `_async_create_timer` at `sampleDate`, monotonic 0. -/
def sampleState : TimerState := _async_create_timer sampleContext sampleDate 0

/-- The handle `sampleState` holds. -/
def sampleHandle : TimerHandle := expectedHandle sampleDate 0

/-- The wall clock captured by the late sample tick. -/
def cexTickDate : Date := { epochSecond := 1002, microsecond := 300000 }

/-- Clock readings for a tick that fires 1.3 seconds after its intended
monotonic fire time 1. -/
def cexEnv : TickEnv := { now := cexTickDate, monoAtLate := 23/10, monoAtSched := 23/10 }

/-- A run of one tick that is 1.3 seconds late. -/
def cexRun : TimerState := runTicks sampleState [cexEnv]

/-- Claim C2: On every timer wake-up, exactly one `time_changed` event is
published; a `timer_out_of_sync` event carrying the lateness duration is
additionally published iff the lateness versus the intended fire time strictly
exceeds 1 second, and when published it comes after the `time_changed` event
(which is first among the tick's events). -/
theorem timer_tick_event_multiplicity_and_order
    (s : TimerState) (target : ℚ) (env : TickEnv) :
    ∃ new : List Event,
      (fire_time_event s target env).events = s.events ++ new ∧
      new.countP (fun e => e.event_type == EVENT_TIME_CHANGED) = 1 ∧
      (env.monoAtLate - target > 1 ↔
        out_of_sync_event s.timer_context env.now (env.monoAtLate - target) ∈ new) ∧
      new.countP (fun e => e.event_type == EVENT_TIMER_OUT_OF_SYNC) ≤ 1 ∧
      new.head? = some (time_changed_event s.timer_context env.now) := by
  refine ⟨_, fire_time_event_events s target env, ?_, ?_, ?_, ?_⟩ <;>
    split <;> rename_i h <;>
    simp [time_changed_event, out_of_sync_event, EVENT_TIME_CHANGED,
      EVENT_TIMER_OUT_OF_SYNC, List.countP_cons, h]

/-- Witness for C2: a concrete wake-up that is 1.3 seconds late publishes the
`timer_out_of_sync` event. -/
theorem timer_tick_event_multiplicity_and_order_witness :
    ∃ new : List Event,
      (fire_time_event emptyState 1 cexEnv).events = emptyState.events ++ new ∧
      out_of_sync_event emptyState.timer_context cexEnv.now (cexEnv.monoAtLate - 1) ∈ new := by
  obtain ⟨new, h1, _, h3, _, _⟩ :=
    timer_tick_event_multiplicity_and_order emptyState 1 cexEnv
  exact ⟨new, h1, h3.mp (by norm_num [cexEnv])⟩

/-- Claim C3: Every event the timer ever publishes, over any run, carries the
single `Context` minted at timer creation, which the timer state retains
unchanged. -/
theorem timer_all_events_share_creation_context
    (ctx : Context) (now0 : Date) (mono0 : ℚ) (envs : List TickEnv) :
    (runTicks (_async_create_timer ctx now0 mono0) envs).timer_context = ctx ∧
    ((runTicks (_async_create_timer ctx now0 mono0) envs).events.all
      (fun e => e.context == ctx)) = true := by
  constructor
  · rw [runTicks_timer_context]
    rfl
  · apply runTicks_events_all
    · rfl
    · intro now late
      have hc : (_async_create_timer ctx now0 mono0).timer_context = ctx := rfl
      rw [hc]
      constructor <;> simp [time_changed_event, out_of_sync_event]

/-- Claim C4: `schedule_tick` from a current time with microsecond component `m`
schedules a delay of exactly `1 - m / 10^6` seconds. -/
theorem schedule_tick_delay_formula (s : TimerState) (now : Date) (mono : ℚ) :
    (schedule_tick s now mono).handle =
      some { delay := 1 - (now.microsecond : ℚ) / 10 ^ 6,
             target := mono + (1 - (now.microsecond : ℚ) / 10 ^ 6),
             cancelled := false } := rfl

/-- Claim C5: After publishing, each wake-up reschedules with a delay computed
from the wall-clock `now` captured at the start of the wake-up; the new handle
does not depend on the originally intended fire time `target`. -/
theorem fire_time_event_reschedules_from_captured_now
    (s : TimerState) (target target2 : ℚ) (env : TickEnv) :
    (fire_time_event s target env).handle =
      some { delay := slp_seconds env.now,
             target := env.monoAtSched + slp_seconds env.now,
             cancelled := false } ∧
    (fire_time_event s target env).handle = (fire_time_event s target2 env).handle :=
  ⟨rfl, rfl⟩

/-- Claim C6: `stop_timer` cancels the pending handle when one exists, and is a
no-op (leaving the state unchanged, rather than failing) when the handle is
still `None`. -/
theorem stop_timer_cancels_pending_and_noop_when_none (s : TimerState) :
    (s.handle = none → stop_timer s = s) ∧
    ∀ h : TimerHandle, s.handle = some h →
      (stop_timer s).handle = some (cancelHandle h) ∧
      (cancelHandle h).cancelled = true ∧
      (stop_timer s).events = s.events := by
  constructor
  · intro hn
    simp [stop_timer, hn]
  · intro h hh
    simp [stop_timer, hh, cancelHandle]

/-- Witness for C6: stopping with no pending handle changes nothing; stopping
the freshly created timer cancels its pending handle. -/
theorem stop_timer_cancels_pending_and_noop_when_none_witness :
    stop_timer emptyState = emptyState ∧
    (stop_timer sampleState).handle = some (cancelHandle sampleHandle) :=
  ⟨(stop_timer_cancels_pending_and_noop_when_none emptyState).1 rfl,
   ((stop_timer_cancels_pending_and_noop_when_none sampleState).2 sampleHandle rfl).1⟩

/-- The per-type key sets of the timer's events: `time_changed` carries exactly
the key `now`, `timer_out_of_sync` exactly the key `seconds`. -/
def event_keys_ok (e : Event) : Bool :=
  if e.event_type == EVENT_TIME_CHANGED then e.data.map Prod.fst == [ATTR_NOW]
  else if e.event_type == EVENT_TIMER_OUT_OF_SYNC then
    e.data.map Prod.fst == [ATTR_SECONDS]
  else true

/-- Claim C7: Over any run, every `time_changed` event the timer publishes has a
data mapping with exactly the key `now`, and every `timer_out_of_sync` event
one with exactly the key `seconds`. -/
theorem timer_event_data_key_sets
    (ctx : Context) (now0 : Date) (mono0 : ℚ) (envs : List TickEnv) :
    ((runTicks (_async_create_timer ctx now0 mono0) envs).events.all
      event_keys_ok) = true := by
  apply runTicks_events_all
  · rfl
  · intro now late
    constructor <;>
      simp [event_keys_ok, time_changed_event, out_of_sync_event,
        EVENT_TIME_CHANGED, EVENT_TIMER_OUT_OF_SYNC, ATTR_NOW, ATTR_SECONDS]

/-- Claim C8: All events of one wake-up carry the same `time_fired`, namely the
wall clock captured once at the start, and the `time_changed` event's data
holds that same instant under `now`. -/
theorem tick_events_share_single_captured_time
    (s : TimerState) (target : ℚ) (env : TickEnv) :
    ∃ new : List Event,
      (fire_time_event s target env).events = s.events ++ new ∧
      new.all (fun e => e.time_fired == env.now) = true ∧
      new.head? = some (time_changed_event s.timer_context env.now) ∧
      new.head?.map Event.data = some [(ATTR_NOW, AttrValue.date env.now)] := by
  refine ⟨_, fire_time_event_events s target env, ?_, ?_, ?_⟩ <;>
    split <;> simp [time_changed_event, out_of_sync_event]

/-- Claim C9: The delay `schedule_tick` computes always lies in the interval
`(0, 1]` (given the `datetime` invariant `microsecond < 10^6`), and is a full
second exactly when the current time sits on a second boundary. -/
theorem schedule_tick_delay_in_unit_interval
    (s : TimerState) (now : Date) (mono : ℚ) (hm : now.microsecond < 1000000) :
    ∃ hdl : TimerHandle, (schedule_tick s now mono).handle = some hdl ∧
      0 < hdl.delay ∧ hdl.delay ≤ 1 ∧ (now.microsecond = 0 → hdl.delay = 1) := by
  have h1 : (now.microsecond : ℚ) < 10 ^ 6 := by
    rw [show ((10 : ℚ) ^ 6) = ((1000000 : ℕ) : ℚ) by norm_num]
    exact_mod_cast hm
  have h0 : (0 : ℚ) ≤ (now.microsecond : ℚ) := Nat.cast_nonneg _
  refine ⟨_, rfl, ?_, ?_, ?_⟩
  · dsimp [slp_seconds]
    have : (now.microsecond : ℚ) / 10 ^ 6 < 1 := (div_lt_one (by norm_num)).mpr h1
    linarith
  · dsimp [slp_seconds]
    have : 0 ≤ (now.microsecond : ℚ) / 10 ^ 6 := by positivity
    linarith
  · intro hz
    dsimp [slp_seconds]
    rw [hz]
    norm_num

/-- Witness for C9: at the sample creation instant (microsecond `0`) the
scheduled delay is a full second. -/
theorem schedule_tick_delay_in_unit_interval_witness :
    ∃ hdl : TimerHandle, (schedule_tick emptyState sampleDate 0).handle = some hdl ∧
      hdl.delay = 1 := by
  obtain ⟨hdl, he, _, _, h4⟩ :=
    schedule_tick_delay_in_unit_interval emptyState sampleDate 0 (by decide)
  exact ⟨hdl, he, h4 (by decide)⟩

lemma runTicks_handle (envs : List TickEnv) (s : TimerState) (now : Date) (mono : ℚ)
    (hs : s.handle = some (expectedHandle now mono)) :
    (runTicks s envs).handle =
      some (envs.getLast?.elim (expectedHandle now mono)
        (fun env => expectedHandle env.now env.monoAtSched)) := by
  induction envs generalizing s now mono with
  | nil => simpa using hs
  | cons env rest ih =>
      show (runTicks (tick s env) rest).handle = _
      have ht : (tick s env).handle = some (expectedHandle env.now env.monoAtSched) := by
        unfold tick
        rw [hs]
        dsimp only
        rw [if_neg (by simp [expectedHandle])]
        exact fire_time_event_handle ..
      rw [ih (tick s env) env.now env.monoAtSched ht]
      cases rest with
      | nil => rfl
      | cons r rs =>
          rw [List.getLast?_cons_cons]
          cases hx : (r :: rs).getLast? with
          | none => simp at hx
          | some x => rfl

/-- Claim C10: `_async_create_timer` registers a one-shot stop listener for
`homeassistant_stop` and schedules its first tick immediately from the
creation-time clock readings (no start event is involved); after any run the
nonlocal handle holds the most recently scheduled wake-up, and `stop_timer`
at that point cancels exactly that pending handle. -/
theorem create_timer_immediate_schedule_and_handle_tracking
    (ctx : Context) (now0 : Date) (mono0 : ℚ) (envs : List TickEnv) :
    (_async_create_timer ctx now0 mono0).listeners =
      [{ event_type := EVENT_HOMEASSISTANT_STOP, once := true }] ∧
    (_async_create_timer ctx now0 mono0).handle = some (expectedHandle now0 mono0) ∧
    (runTicks (_async_create_timer ctx now0 mono0) envs).handle =
      some (envs.getLast?.elim (expectedHandle now0 mono0)
        (fun env => expectedHandle env.now env.monoAtSched)) ∧
    (stop_timer (runTicks (_async_create_timer ctx now0 mono0) envs)).handle =
      some (cancelHandle (envs.getLast?.elim (expectedHandle now0 mono0)
        (fun env => expectedHandle env.now env.monoAtSched))) := by
  have h2 : (_async_create_timer ctx now0 mono0).handle =
      some (expectedHandle now0 mono0) := rfl
  have h3 := runTicks_handle envs _ now0 mono0 h2
  refine ⟨rfl, h2, h3, ?_⟩
  unfold stop_timer
  rw [h3]

/-- Claim C1, counterexample: In the concrete run where the tick fires 1.3
seconds after its intended fire time, both events are published in order, but
the `seconds` value of `timer_out_of_sync` is the full lateness `13/10`, which
is not approximately `3/10` (it misses it by a whole second). -/
theorem timer_late_tick_seconds_value_cex :
    cexRun.events =
      [time_changed_event sampleContext cexTickDate,
       out_of_sync_event sampleContext cexTickDate (13/10)] ∧
    (13 : ℚ)/10 ≠ 3/10 ∧ ¬ |(13 : ℚ)/10 - 3/10| ≤ 1/2 := by
  refine ⟨?_, by norm_num, ?_⟩
  · show (runTicks sampleState [cexEnv]).events = _
    have hs : sampleState.handle = some (expectedHandle sampleDate 0) := rfl
    show (tick sampleState cexEnv).events = _
    unfold tick
    rw [hs]
    dsimp only
    rw [if_neg (by simp [expectedHandle])]
    rw [fire_time_event_events]
    have hst : sampleState.timer_context = sampleContext := rfl
    have hse : sampleState.events = [] := rfl
    rw [hst, hse]
    have hlate : cexEnv.monoAtLate - (expectedHandle sampleDate 0).target = 13/10 := by
      simp [cexEnv, expectedHandle, slp_seconds, sampleDate]
      norm_num
    rw [hlate]
    norm_num
    exact ⟨rfl, rfl⟩
  · rw [show (13 : ℚ)/10 - 3/10 = 1 by norm_num, abs_one]
    norm_num

/-- Claim C1, amended: If a timer tick fires 1.3 seconds later than its intended
fire time at simulated time `T`, then a `time_changed` event with `now = T` and
a `timer_out_of_sync` event are published, in that order, and the
`timer_out_of_sync` event's `seconds` value is the full lateness `13/10`
(approximately 1.3, not 0.3). -/
theorem timer_late_tick_publishes_full_lateness
    (s : TimerState) (target : ℚ) (T : Date) (monoSched : ℚ) :
    (fire_time_event s target
        { now := T, monoAtLate := target + 13/10, monoAtSched := monoSched }).events =
      s.events ++
        [time_changed_event s.timer_context T,
         out_of_sync_event s.timer_context T (13/10)] := by
  rw [fire_time_event_events]
  norm_num

end RxHomeCore
